import Mathlib

/-!
Verification development for the `fate` gateway (package `browser`,
`f8/browser/browser.go`): a reverse proxy in front of a local file-management
backend.  The definitions below are a shallow embedding of the Go source:
pure data flow is modelled directly, in-place mutation is modelled by
returning the final state of the mutated object, and the single-consumption
request body is modelled by tracking the bytes remaining in the stream.
External collaborators (the JSON decoder, the mime table, the identity
lookup that the source stubs with a TODO) are parameters.
-/

/-- Go `strings.Split` of a character list on a single separator character:
returns the (nonempty) list of segments between occurrences of `c`. -/
def splitOnSep (c : Char) : List Char → List (List Char)
  | [] => [[]]
  | x :: xs =>
    let r := splitOnSep c xs
    if x = c then [] :: r
    else
      match r with
      | [] => [[x]]
      | y :: ys => (x :: y) :: ys

/-- Helper for Go `strings.Contains`: is `needle` a leading segment of `hay`? -/
def leadsList : List Char → List Char → Bool
  | [], _ => true
  | _ :: _, [] => false
  | a :: as, b :: bs => a == b && leadsList as bs

/-- Helper for Go `strings.Contains` on character lists. -/
def containsList : List Char → List Char → Bool
  | [], needle => needle.isEmpty
  | hay@(_ :: tl), needle => leadsList needle hay || containsList tl needle

/-- Go `strings.Contains s sub`: whether `sub` occurs as a substring of `s`. -/
def goContains (s sub : String) : Bool :=
  containsList s.toList sub.toList

/-- A Go `http.Header`: a finite map from header name to the ordered list of
its values, modelled as an association list (Go map keys are unique; theorems
that need uniqueness take a `Nodup` hypothesis).  All header names used by
the source are already in canonical MIME form, so no canonicalisation step
is modelled. -/
abbrev Headers := List (String × List String)

/-- Go `http.Header.Get`-style lookup of the full value list of a name
(empty when the name is absent). -/
def Headers.get : Headers → String → List String
  | [], _ => []
  | e :: rest, name => if e.1 = name then e.2 else Headers.get rest name

/-- Go `http.Header.Set`: replace the name's value list with the single
value `v`, adding the entry when absent. -/
def Headers.set : Headers → String → String → Headers
  | [], name, v => [(name, [v])]
  | e :: rest, name, v =>
    if e.1 = name then (name, [v]) :: rest else e :: Headers.set rest name v

/-- Go `http.Header.Add`: append `v` to the name's value list, adding the
entry when absent. -/
def Headers.add : Headers → String → String → Headers
  | [], name, v => [(name, [v])]
  | e :: rest, name, v =>
    if e.1 = name then (e.1, e.2 ++ [v]) :: rest else e :: Headers.add rest name v

/-- The fields of a Go `url.URL` that the gateway reads or writes. -/
structure URL where
  scheme : String
  host : String
  path : String
  rawQuery : String
deriving DecidableEq, Repr

/-- Go `url.URL.String()` for the URLs the gateway builds:
`scheme://host/path` followed by `?rawQuery` when a query is present. -/
def URL.toString (u : URL) : String :=
  u.scheme ++ "://" ++ u.host ++ u.path ++
    (if u.rawQuery = "" then "" else "?" ++ u.rawQuery)

/-- The parts of a Go `*http.Request` the handler touches.  `body` holds the
bytes of the single-consumption body stream. -/
structure Request where
  method : String
  url : URL
  host : String
  remoteAddr : String
  header : Headers
  body : String
deriving DecidableEq, Repr

/-- The credential record of `browser.go` (`type User struct`), decoded from
the login request's JSON body. -/
structure User where
  username : String
  password : String
deriving DecidableEq, Repr

/-- The outbound request handed to `client.Do`: method, the target URL string
captured at `http.NewRequest` time, the cloned-and-rewritten header set, and
the bytes the forward will actually read from the (shared, single-consumption)
body stream. -/
structure OutboundRequest where
  method : String
  urlString : String
  header : Headers
  body : String
deriving DecidableEq, Repr

/-- How one call of the handler ends, as far as the forward is concerned:
`malformedPayload` models the `log.Panic(err)` on a failed JSON decode (the
handler aborts, `client.Do` is never reached); `upgrade` is the
`api/command` websocket branch; `forwarded` hands the outbound request to
the HTTP client. -/
inductive Outcome where
  | malformedPayload
  | upgrade (dialURLString : String)
  | forwarded (out : OutboundRequest)
deriving DecidableEq, Repr

/-- The result of running `fileBrowser` on one request: the final state of
the caller's request object (whose URL the handler aliases and mutates in
place) and the outcome. -/
structure HandlerResult where
  reqAfter : Request
  outcome : Outcome
deriving DecidableEq, Repr

/-- `fbAuthHeader` of `browser.go`: the trusted-identity header name. -/
def fbAuthHeader : String := "X-Generic-AppName"

/-- The tail of `fileBrowser` (`browser.go:117-204` up to the forward
decision): the `api/command` check rewrites the (aliased) URL scheme to `ws`
and takes the upgrade branch; otherwise the outbound request goes to
`client.Do`. -/
def finishRequest (req : Request) (url : URL) (targetURL : String)
    (proxyHeader : Headers) (bodyRemaining : String) : HandlerResult :=
  if goContains url.path "api/command" then
    let wsURL : URL := { url with scheme := "ws" }
    { reqAfter := { req with url := wsURL },
      outcome := Outcome.upgrade (URL.toString wsURL) }
  else
    { reqAfter := { req with url := url },
      outcome := Outcome.forwarded
        { method := req.method, urlString := targetURL,
          header := proxyHeader, body := bodyRemaining } }

/-- `fileBrowser` (`browser.go:75-204`), up to the forward decision.

* `url := req.URL` copies a pointer, so the writes to `url.Scheme` and
  `url.Host` mutate the caller's URL in place; this is modelled by
  `reqAfter` carrying the mutated URL.
* the target URL string is captured at `http.NewRequest` time, before the
  command branch rewrites the scheme to `ws`.
* `proxyReq.Header = req.Header.Clone()` then `Set` of `Host` and
  `X-Forwarded-For` mutate only the clone.
* on a login request (`POST` and path containing `/login`) the body is
  JSON-decoded straight from `req.Body` — the same stream `http.NewRequest`
  stored on the outbound request — so a successful decode drains the stream
  and the forward reads an empty remainder; a failed decode hits
  `log.Panic(err)` and the request is never forwarded.
* `foundIndDB` is a hard-coded `true` with a TODO to query the user
  database; the identity collaborator is therefore the parameter
  `identityLookup` (modelled from the spec: on affirm, set the
  trusted-identity header to the username; otherwise leave it alone). -/
def fileBrowser (decodeUser : String → Option User) (identityLookup : User → Bool)
    (req : Request) : HandlerResult :=
  let url : URL := { req.url with scheme := "http", host := "localhost:8080" }
  let targetURL := URL.toString url
  let proxyHeader :=
    Headers.set (Headers.set req.header "Host" req.host)
      "X-Forwarded-For" req.remoteAddr
  if req.method == "POST" && goContains url.path "/login" then
    match decodeUser req.body with
    | none =>
      { reqAfter := { req with url := url }, outcome := Outcome.malformedPayload }
    | some us =>
      let proxyHeader :=
        if identityLookup us then Headers.set proxyHeader fbAuthHeader us.username
        else proxyHeader
      finishRequest req url targetURL proxyHeader ""
  else
    finishRequest req url targetURL proxyHeader req.body

/-- Observation helper: the bytes the forward sends when the outcome is a
forward. -/
def forwardedBody : Outcome → Option String
  | Outcome.forwarded out => some out.body
  | _ => none

/-- Observation helper: the outbound value list of the trusted-identity
header when the request was forwarded. -/
def forwardedAuthValues (r : HandlerResult) : Option (List String) :=
  match r.outcome with
  | Outcome.forwarded out => some (Headers.get out.header fbAuthHeader)
  | _ => none

/-- Concrete JSON decoder instance for tests: accepts exactly the body
`creds` as the credential record `alice`/`pw`. -/
def dec0 (s : String) : Option User :=
  if s == "creds" then some { username := "alice", password := "pw" } else none

/-- A decoder that fails on every body (any malformed-JSON body). -/
def decNone : String → Option User := fun _ => none

/-- An identity collaborator that affirms every credential (the source's
hard-coded `foundIndDB := true`). -/
def lookupTrue : User → Bool := fun _ => true

/-- An identity collaborator that affirms no credential. -/
def lookupFalse : User → Bool := fun _ => false

/-- A concrete login request: `POST /admin/api/login` with body `creds`. -/
def reqLogin : Request :=
  { method := "POST"
    url := { scheme := "", host := "", path := "/admin/api/login", rawQuery := "" }
    host := "example.com"
    remoteAddr := "1.2.3.4:5"
    header := []
    body := "creds" }

/-- A login request whose caller already supplies the trusted-identity
header. -/
def reqLoginEvil : Request :=
  { reqLogin with header := [("X-Generic-AppName", ["evil"])] }

/-- A plain non-login request with an absolute inbound URL. -/
def reqPlain : Request :=
  { method := "GET"
    url := { scheme := "https", host := "example.com", path := "/admin/img", rawQuery := "" }
    host := "example.com"
    remoteAddr := "9.9.9.9:1"
    header := [("Accept", ["text/html"])]
    body := "" }

/-- The backend's response as seen by the relay (`proxyRes`): status code,
header set, body bytes. -/
structure BackendResponse where
  statusCode : Nat
  header : Headers
  body : String
deriving DecidableEq, Repr

/-- What the handler writes to the caller's `http.ResponseWriter`: the status
actually sent, the outbound header set, the body bytes. -/
structure WrittenResponse where
  status : Nat
  header : Headers
  body : String
deriving DecidableEq, Repr

/-- `browser.go:186-187`: `uparts := strings.Split(url.String(), ".")` and
`ext := "." + uparts[len(uparts)-1]` — the "extension" is a dot followed by
the last `.`-separated segment of the entire URL string (scheme, host, path
and query included). -/
def extOfURLString (urlString : String) : String :=
  "." ++ String.mk ((splitOnSep '.' urlString.toList).getLastD [])

/-- The inner loop of the header copy (`browser.go:192-198`): for each value
of one header name, if the name is `Content-Type` and the extension maps to
`text/css`, `Set` that value and `break`; otherwise `Add` it. -/
def copyValues (tbe : String → String) (ext : String) (name : String) :
    List String → Headers → Headers
  | [], w => w
  | v :: vs, w =>
    if name == "Content-Type" && tbe ext == "text/css" then Headers.set w name v
    else copyValues tbe ext name vs (Headers.add w name v)

/-- The outer loop of the header copy (`browser.go:190-199`): iterate the
backend's header entries, running the inner value loop for each name.  (Go
map iteration order is arbitrary; the per-name results proved below are
order-independent.) -/
def copyHeadersLoop (tbe : String → String) (ext : String) :
    Headers → Headers → Headers
  | [], w => w
  | (name, values) :: rest, w =>
    copyHeadersLoop tbe ext rest (copyValues tbe ext name values w)

/-- The response relay (`browser.go:181-204`): computes the extension from
the full URL string, copies the backend headers under the stylesheet
override rule, and streams the body with `io.Copy`.  The call
`w.WriteHeader(proxyRes.StatusCode)` is commented out in the source, so
`net/http` sends its implicit default status `200` when the body copy first
writes (or when the handler returns). -/
def relayResponse (tbe : String → String) (urlString : String)
    (res : BackendResponse) : WrittenResponse :=
  let ext := extOfURLString urlString
  { status := 200
    header := copyHeadersLoop tbe ext res.header []
    body := res.body }

/-- `mime.TypeByExtension` restricted to the mapping the gateway relies on:
the stylesheet extension maps to the stylesheet media type, everything else
is unknown. -/
def tbe0 (e : String) : String := if e == ".css" then "text/css" else ""

/-- A backend response carrying two conflicting `Content-Type` values plus an
unrelated multi-valued header. -/
def resTwoCT : BackendResponse :=
  { statusCode := 200
    header := [("Content-Type", ["text/plain", "text/css"]), ("X-Other", ["a", "b"])]
    body := "css-bytes" }

/-- A backend error response. -/
def res404 : BackendResponse :=
  { statusCode := 404
    header := [("Content-Type", ["text/html"])]
    body := "nope" }

/-- `handleRequest` (`browser.go:45-53`), raw TCP forwarding mode: dials the
fixed backend; on dial error it calls `panic(err)` inside the per-connection
goroutine, which (being unrecovered) terminates the whole process; on
success it launches the two copy directions. -/
inductive TcpHandleOutcome where
  | processPanic
  | relayStarted
deriving DecidableEq, Repr

/-- See `TcpHandleOutcome`. -/
def handleRequest (dialOk : Bool) : TcpHandleOutcome :=
  if dialOk then TcpHandleOutcome.relayStarted else TcpHandleOutcome.processPanic

/-- One endpoint of a relayed connection: the chunks successive reads will
yield until EOF, and whether the connection has been closed. -/
structure ConnEnd where
  readChunks : List (List Nat)
  closed : Bool
deriving DecidableEq, Repr

/-- `io.Copy(dest, src)`: reads successive chunks from the source until EOF
and writes each chunk to the destination unmodified. -/
def ioCopy : List (List Nat) → List Nat
  | [] => []
  | c :: cs => c ++ ioCopy cs

/-- The state after one copy direction finishes: both connection ends and the
bytes delivered to the destination. -/
structure CopyRun where
  srcAfter : ConnEnd
  destAfter : ConnEnd
  delivered : List Nat
deriving DecidableEq, Repr

/-- `copyIO` (`browser.go:55-59`): `defer src.Close()`, `defer dest.Close()`,
`io.Copy(dest, src)` — the copy runs to completion or error, after which the
deferred closes shut both connections. -/
def copyConn (src dest : ConnEnd) : CopyRun :=
  { srcAfter := { src with closed := true }
    destAfter := { dest with closed := true }
    delivered := ioCopy src.readChunks }

/-- The `api/command` websocket branch (`browser.go:117-171`) after the URL
scheme rewrite: upgrade the caller (on failure, log and return — connection
scoped); dial the backend (on failure, `log.Fatal` — exits the whole
process); then write the single fixed text message `message` to the caller
and return.  The bidirectional relay loop is commented out in the source, so
no caller frame (`clientMsgs`) and no backend frame (`backendMsgs`) is ever
forwarded. -/
structure BridgeResult where
  processExited : Bool
  handlerReturned : Bool
  sentToClient : List String
  sentToBackend : List String
deriving DecidableEq, Repr

/-- See `BridgeResult`. -/
def commandBridge (upgradeOk dialOk writeOk : Bool)
    (clientMsgs backendMsgs : List String) : BridgeResult :=
  if !upgradeOk then
    { processExited := false, handlerReturned := true
      sentToClient := [], sentToBackend := [] }
  else if !dialOk then
    { processExited := true, handlerReturned := false
      sentToClient := [], sentToBackend := [] }
  else if !writeOk then
    { processExited := false, handlerReturned := true
      sentToClient := [], sentToBackend := [] }
  else
    { processExited := false, handlerReturned := true
      sentToClient := ["message"], sentToBackend := [] }


theorem Headers.get_set_self (h : Headers) (n v : String) :
    Headers.get (Headers.set h n v) n = [v] := by
  induction h with
  | nil => simp [Headers.set, Headers.get]
  | cons e rest ih =>
    by_cases he : e.1 = n
    · simp [Headers.set, he, Headers.get]
    · simp [Headers.set, he, Headers.get, ih]

theorem Headers.get_set_ne (h : Headers) (n v m : String) (hmn : m ≠ n) :
    Headers.get (Headers.set h n v) m = Headers.get h m := by
  have hnm : ¬ n = m := fun hh => hmn hh.symm
  induction h with
  | nil => simp [Headers.set, Headers.get, hnm]
  | cons e rest ih =>
    by_cases he : e.1 = n
    · simp [Headers.set, he, Headers.get, hnm]
    · simp [Headers.set, he, Headers.get, ih]

theorem Headers.get_add_self (h : Headers) (n v : String) :
    Headers.get (Headers.add h n v) n = Headers.get h n ++ [v] := by
  induction h with
  | nil => simp [Headers.add, Headers.get]
  | cons e rest ih =>
    by_cases he : e.1 = n
    · simp [Headers.add, he, Headers.get]
    · simp [Headers.add, he, Headers.get, ih]

theorem Headers.get_add_ne (h : Headers) (n v m : String) (hmn : m ≠ n) :
    Headers.get (Headers.add h n v) m = Headers.get h m := by
  have hnm : ¬ n = m := fun hh => hmn hh.symm
  induction h with
  | nil => simp [Headers.add, Headers.get, hnm]
  | cons e rest ih =>
    by_cases he : e.1 = n
    · simp [Headers.add, he, Headers.get, hnm]
    · simp [Headers.add, he, Headers.get, ih]

theorem Headers.get_eq_nil (h : Headers) (n : String) (hn : n ∉ h.map Prod.fst) :
    Headers.get h n = [] := by
  induction h with
  | nil => rfl
  | cons e rest ih =>
    simp only [List.map_cons, List.mem_cons, not_or] at hn
    have hne : ¬ e.1 = n := fun hh => hn.1 hh.symm
    simp [Headers.get, hne, ih hn.2]

theorem copyValues_get_self_of_neg (tbe : String → String) (ext name : String)
    (hcond : (name == "Content-Type" && tbe ext == "text/css") = false) :
    ∀ (vs : List String) (w : Headers),
      Headers.get (copyValues tbe ext name vs w) name = Headers.get w name ++ vs := by
  intro vs
  induction vs with
  | nil => intro w; simp [copyValues]
  | cons v vs ih =>
    intro w
    rw [copyValues, if_neg (by simp [hcond]), ih, Headers.get_add_self,
      List.append_assoc, List.singleton_append]

theorem copyValues_get_self_of_pos (tbe : String → String) (ext name : String)
    (hcond : (name == "Content-Type" && tbe ext == "text/css") = true)
    (v : String) (vs : List String) (w : Headers) :
    Headers.get (copyValues tbe ext name (v :: vs) w) name = [v] := by
  rw [copyValues, if_pos (by simp_all), Headers.get_set_self]

theorem copyValues_get_ne (tbe : String → String) (ext name : String) :
    ∀ (vs : List String) (w : Headers) (m : String), m ≠ name →
      Headers.get (copyValues tbe ext name vs w) m = Headers.get w m := by
  intro vs
  induction vs with
  | nil => intro w m _; rfl
  | cons v vs ih =>
    intro w m hm
    rw [copyValues]
    by_cases hcond : (name == "Content-Type" && tbe ext == "text/css") = true
    · rw [if_pos (by simp_all), Headers.get_set_ne _ _ _ _ hm]
    · rw [if_neg (by simp_all), ih _ m hm, Headers.get_add_ne _ _ _ _ hm]

theorem copyLoop_get (tbe : String → String) (ext : String) :
    ∀ (entries w : Headers) (name : String),
      (entries.map Prod.fst).Nodup →
      (∀ n ∈ entries.map Prod.fst, Headers.get w n = []) →
      Headers.get (copyHeadersLoop tbe ext entries w) name =
        if name ∈ entries.map Prod.fst then
          (if name == "Content-Type" && tbe ext == "text/css"
           then (Headers.get entries name).take 1
           else Headers.get entries name)
        else Headers.get w name := by
  intro entries
  induction entries with
  | nil => intro w name _ _; simp [copyHeadersLoop]
  | cons e rest ih =>
    obtain ⟨n, vs⟩ := e
    intro w name hnd hz
    have hcons : (n :: rest.map Prod.fst).Nodup := by simpa using hnd
    have hn_not : n ∉ rest.map Prod.fst := (List.nodup_cons.mp hcons).1
    have hnd' : (rest.map Prod.fst).Nodup := (List.nodup_cons.mp hcons).2
    have hwn : Headers.get w n = [] := hz n (by simp)
    have hz' : ∀ k ∈ rest.map Prod.fst, Headers.get (copyValues tbe ext n vs w) k = [] := by
      intro k hk
      have hkn : k ≠ n := fun hh => hn_not (hh ▸ hk)
      rw [copyValues_get_ne tbe ext n vs w k hkn]
      exact hz k (by simp [hk])
    rw [copyHeadersLoop, ih (copyValues tbe ext n vs w) name hnd' hz']
    by_cases hname : name = n
    · subst hname
      have hmemc : name ∈ List.map Prod.fst ((name, vs) :: rest) := by simp
      rw [if_neg hn_not, if_pos hmemc]
      by_cases hcond : (name == "Content-Type" && tbe ext == "text/css") = true
      · rw [if_pos hcond]
        cases vs with
        | nil => simp [copyValues, hwn, Headers.get]
        | cons v vs' =>
          rw [copyValues_get_self_of_pos tbe ext name hcond]
          simp [Headers.get]
      · rw [if_neg hcond]
        rw [copyValues_get_self_of_neg tbe ext name (by simpa using hcond), hwn]
        simp [Headers.get]
    · have hmv : Headers.get (copyValues tbe ext n vs w) name = Headers.get w name :=
        copyValues_get_ne tbe ext n vs w name hname
      have hnn : ¬ n = name := fun hh => hname hh.symm
      have hget : Headers.get ((n, vs) :: rest) name = Headers.get rest name := by
        simp [Headers.get, hnn]
      by_cases hmem : name ∈ rest.map Prod.fst
      · have hmc : name ∈ List.map Prod.fst ((n, vs) :: rest) := by simp [hmem]
        rw [if_pos hmem, if_pos hmc, hget]
      · have hmc : name ∉ List.map Prod.fst ((n, vs) :: rest) := by
          simp [hname, hmem]
        rw [if_neg hmem, if_neg hmc, hmv]

/-- C1: on a login request whose JSON body decodes successfully, the code
does NOT replace the shared single-consumption body stream: the JSON decoder
drains it, so the request forwarded by `client.Do` carries an empty body
rather than bytes identical to the inbound body (`creds`). -/
theorem C1_login_forward_body_consumed :
    forwardedBody (fileBrowser dec0 lookupTrue reqLogin).outcome = some "" ∧
    reqLogin.body = "creds" ∧ ("" : String) ≠ "creds" := by decide

/-- C3: a per-connection backend dial failure does terminate the listening
process: `handleRequest` calls `panic(err)` inside its goroutine, and the
websocket branch calls `log.Fatal` on a dial error, contradicting the
claimed isolation of per-connection failures. -/
theorem C3_dial_failure_terminates_process :
    handleRequest false = TcpHandleOutcome.processPanic ∧
    (commandBridge true false true [] []).processExited = true := by decide

/-- C4: after a successful upgrade and dial, the bridge is not a
bidirectional relay: it writes the single fixed text message `message` to
the caller and returns, forwarding nothing from either endpoint (the relay
loop is commented out in the source). -/
theorem C4_single_fixed_message_no_relay :
    (commandBridge true true true ["ls"] ["dir-listing"]).sentToBackend = [] ∧
    (commandBridge true true true ["ls"] ["dir-listing"]).sentToClient = ["message"] ∧
    (commandBridge true true true ["ls"] ["dir-listing"]).handlerReturned = true ∧
    (["ls"] : List String) ≠ [] ∧
    (["dir-listing"] : List String) ≠ ["message"] := by decide

/-- C5 counterexample: a backend `404` response is relayed to the caller
with status `200` (the `WriteHeader(proxyRes.StatusCode)` call is commented
out), so the claimed status passthrough fails. -/
theorem C5_counterexample :
    (relayResponse tbe0 "http://localhost:8080/admin/missing" res404).status = 200 ∧
    res404.statusCode = 404 ∧ (200 : Nat) ≠ 404 := by decide

/-- C5 (amended): for every proxied non-login, non-upgrade request, the
response written to the caller carries the implicit default status `200`
(regardless of the backend status), the header set produced by the header
copy rule, and the backend body streamed unchanged. -/
theorem C5_amended_relay (tbe : String → String) (u : String) (res : BackendResponse) :
    (relayResponse tbe u res).status = 200 ∧
    (relayResponse tbe u res).header = copyHeadersLoop tbe (extOfURLString u) res.header [] ∧
    (relayResponse tbe u res).body = res.body :=
  ⟨rfl, rfl, rfl⟩

/-- C6 counterexample: for a `.css` path with two conflicting backend
`Content-Type` values, the outbound header keeps the backend's FIRST value
(`text/plain`), not the stylesheet media type: the override `Set`s the
backend-sent value instead of `text/css`. -/
theorem C6_counterexample :
    Headers.get (relayResponse tbe0 "http://localhost:8080/style.css" resTwoCT).header
      "Content-Type" = ["text/plain"] ∧
    ("text/plain" : String) ≠ "text/css" := by decide

/-- C2 counterexample: for a login request the collaborator does NOT affirm,
the trusted-identity header is not necessarily absent from the outbound set:
the header set is cloned from the inbound request, so a caller-supplied
`X-Generic-AppName: evil` survives into the outbound headers. -/
theorem C2_counterexample :
    forwardedAuthValues (fileBrowser dec0 lookupFalse reqLoginEvil) = some ["evil"] ∧
    (["evil"] : List String) ≠ [] := by decide

/-- C7 counterexample: the caller's original URL is NOT unchanged — the
handler aliases `req.URL` and overwrites its scheme and host in place. -/
theorem C7_counterexample :
    ¬ ((fileBrowser dec0 lookupTrue reqPlain).reqAfter.url = reqPlain.url) := by decide

/-- C9: every byte sequence read from one side of an established connection
pair is delivered unmodified and complete to the other side (`io.Copy`
concatenates the source's chunks verbatim), and once the copy completes both
connections are closed by the deferred closes. -/
theorem C9_forwarder_roundtrip (a b : ConnEnd) :
    (copyConn a b).delivered = a.readChunks.flatten ∧
    (copyConn a b).srcAfter.closed = true ∧
    (copyConn a b).destAfter.closed = true := by
  refine ⟨?_, rfl, rfl⟩
  show ioCopy a.readChunks = a.readChunks.flatten
  induction a.readChunks with
  | nil => rfl
  | cons c cs ih => simp [ioCopy, ih]

/-- C10: the stylesheet-override condition is computed from the last
`.`-separated segment of the entire backend URL string (query included), so
a query string glued after `.css` defeats the override on a stylesheet path,
while a `.css` occurring in the query enables it on a non-stylesheet path. -/
theorem C10_override_from_full_url :
    extOfURLString (URL.toString
      { scheme := "http", host := "localhost:8080",
        path := "/style.css", rawQuery := "v=2" }) = ".css?v=2" ∧
    tbe0 ".css?v=2" = "" ∧
    Headers.get (relayResponse tbe0 "http://localhost:8080/style.css?v=2" resTwoCT).header
      "Content-Type" = ["text/plain", "text/css"] ∧
    extOfURLString "http://localhost:8080/readme?f=x.css" = ".css" ∧
    Headers.get (relayResponse tbe0 "http://localhost:8080/readme?f=x.css" resTwoCT).header
      "Content-Type" = ["text/plain"] := by decide

/-- C2 (amended): for a login request that decodes, if the collaborator
affirms the identity the outbound trusted-identity header is exactly the
username; if it does not affirm, the handler adds nothing — the outbound
values for that header are exactly the inbound ones (absent whenever the
caller did not supply the header) — and the request is still forwarded. -/
theorem C2_amended_auth_header (dec : String → Option User) (lookup : User → Bool)
    (req : Request) (us : User)
    (hm : req.method = "POST") (hl : goContains req.url.path "/login" = true)
    (hc : goContains req.url.path "api/command" = false)
    (hd : dec req.body = some us) :
    forwardedAuthValues (fileBrowser dec lookup req) =
      some (if lookup us then [us.username] else Headers.get req.header fbAuthHeader) := by
  have hAuthHost : fbAuthHeader ≠ "Host" := by decide
  have hAuthFwd : fbAuthHeader ≠ "X-Forwarded-For" := by decide
  simp only [fileBrowser, finishRequest, hm, hl, hd, hc, beq_self_eq_true,
    Bool.true_and, if_true, Bool.false_eq_true, if_false]
  cases hlu : lookup us with
  | true =>
    simp only [if_true, forwardedAuthValues, Headers.get_set_self]
  | false =>
    simp only [Bool.false_eq_true, if_false, forwardedAuthValues,
      Headers.get_set_ne _ _ _ _ hAuthFwd, Headers.get_set_ne _ _ _ _ hAuthHost]

/-- C2 witness: the amended statement at a concrete affirmed login. -/
theorem C2_amended_auth_header_witness :
    forwardedAuthValues (fileBrowser dec0 lookupTrue reqLogin) =
      some (if lookupTrue { username := "alice", password := "pw" } then ["alice"]
            else Headers.get reqLogin.header fbAuthHeader) :=
  C2_amended_auth_header dec0 lookupTrue reqLogin
    { username := "alice", password := "pw" } rfl (by decide) (by decide) (by decide)

/-- C8: a login request whose body fails to JSON-decode aborts with the
malformed-payload failure (the `log.Panic(err)` on the decode error) and is
never forwarded to the backend. -/
theorem C8_malformed_payload_not_forwarded (dec : String → Option User)
    (lookup : User → Bool) (req : Request)
    (hm : req.method = "POST") (hl : goContains req.url.path "/login" = true)
    (hd : dec req.body = none) :
    (fileBrowser dec lookup req).outcome = Outcome.malformedPayload ∧
    ∀ out, (fileBrowser dec lookup req).outcome ≠ Outcome.forwarded out := by
  simp [fileBrowser, hm, hl, hd]

/-- C8 witness: a concrete malformed login body is rejected, not forwarded. -/
theorem C8_malformed_payload_not_forwarded_witness :
    (fileBrowser decNone lookupTrue reqLogin).outcome = Outcome.malformedPayload :=
  (C8_malformed_payload_not_forwarded decNone lookupTrue reqLogin rfl (by decide) rfl).1

/-- C7 (amended): after the handler constructs the outbound request, the
caller's header set is unchanged (only the cloned header set is mutated),
but the caller's URL object is mutated in place: its scheme is overwritten
to `http` (`ws` on command paths) and its host to the backend address, while
method, path and query are unchanged. -/
theorem C7_amended_request_mutation (dec : String → Option User)
    (lookup : User → Bool) (req : Request) :
    (fileBrowser dec lookup req).reqAfter.header = req.header ∧
    (fileBrowser dec lookup req).reqAfter.method = req.method ∧
    (fileBrowser dec lookup req).reqAfter.url.path = req.url.path ∧
    (fileBrowser dec lookup req).reqAfter.url.rawQuery = req.url.rawQuery ∧
    (fileBrowser dec lookup req).reqAfter.url.host = "localhost:8080" ∧
    ((fileBrowser dec lookup req).reqAfter.url.scheme = "http" ∨
      (fileBrowser dec lookup req).reqAfter.url.scheme = "ws") := by
  simp only [fileBrowser, finishRequest]
  repeat' split
  all_goals simp

/-- C6 (amended): for every backend response with unique header names, when
the extension-to-media-type mapping sends `.` plus the last `.`-separated
segment of the FULL backend URL string to the stylesheet media type, the
outbound `Content-Type` carries at most one value — the FIRST value the
backend sent (not necessarily the stylesheet media type) — and every other
header name keeps all its values; when the mapping does not produce the
stylesheet type, every backend header value is preserved with matching
counts. -/
theorem C6_amended_header_copy (tbe : String → String) (u : String)
    (res : BackendResponse) (hnd : (res.header.map Prod.fst).Nodup) (name : String) :
    Headers.get (relayResponse tbe u res).header name =
      (if name == "Content-Type" && tbe (extOfURLString u) == "text/css"
       then (Headers.get res.header name).take 1
       else Headers.get res.header name) := by
  have hz : ∀ n ∈ res.header.map Prod.fst, Headers.get ([] : Headers) n = [] :=
    fun _ _ => rfl
  show Headers.get (copyHeadersLoop tbe (extOfURLString u) res.header []) name = _
  rw [copyLoop_get tbe (extOfURLString u) res.header [] name hnd hz]
  by_cases hmem : name ∈ res.header.map Prod.fst
  · rw [if_pos hmem]
  · rw [if_neg hmem]
    have hnil : Headers.get res.header name = [] := Headers.get_eq_nil res.header name hmem
    rw [hnil]
    by_cases hcond : (name == "Content-Type" && tbe (extOfURLString u) == "text/css") = true
    · rw [if_pos hcond]; rfl
    · rw [if_neg hcond]; rfl

/-- C6 witness: the amended statement at the `.css` response carrying two
conflicting `Content-Type` values. -/
theorem C6_amended_header_copy_witness :
    Headers.get (relayResponse tbe0 "http://localhost:8080/style.css" resTwoCT).header
      "Content-Type" =
      (if "Content-Type" == "Content-Type" &&
          tbe0 (extOfURLString "http://localhost:8080/style.css") == "text/css"
       then (Headers.get resTwoCT.header "Content-Type").take 1
       else Headers.get resTwoCT.header "Content-Type") :=
  C6_amended_header_copy tbe0 "http://localhost:8080/style.css" resTwoCT
    (by decide) "Content-Type"
